import Mathlib

/-!
Verification of the intent-interpretation pipeline of the Domain Pack
Orchestrator backend (`backend/services/llm_service.py`,
`backend/api/routes/intent.py`, `backend/schemas/intention.py`).

The Python values flowing through the pipeline (results of `json.loads`,
the dictionaries handed to the normalizer and to the pydantic validator)
are shallowly embedded as the inductive type `Json` below.  Python `dict`s
are embedded as insertion-ordered association lists (`Record`), which is
exactly the observable behaviour of CPython dicts: lookup by key, update
in place keeps the key's position, inserting a fresh key appends at the
end.  Python `float`s are embedded as rationals (`ℚ`); every float is a
rational and the comparisons against the literals 0.0 and 1.0 performed
by the code coincide with rational comparisons (NaN/infinities are not
produced by any code path modelled here).
-/

set_option maxHeartbeats 1000000

set_option linter.unnecessarySeqFocus false

attribute [local semireducible] Rat.add Rat.mul Rat.sub Rat.inv Rat.ofScientific

/-- A Python value as produced by `json.loads`: `None`, `bool`, numbers
(`int`/`float`, embedded as `ℚ`), `str`, `list`, `dict`. -/
inductive Json where
  | null : Json
  | bool (b : Bool) : Json
  | num (q : ℚ) : Json
  | str (s : String) : Json
  | arr (elems : List Json) : Json
  | obj (fields : List (String × Json)) : Json

/-- A Python `dict` with string keys, as an insertion-ordered association
list (the iteration order CPython guarantees). -/
abbrev Record := List (String × Json)

/-- Python `d[k]` / `d.get(k)`: value at the key, if present. -/
def recordGet : Record → String → Option Json
  | [], _ => none
  | (k, v) :: rest, key => if key = k then some v else recordGet rest key

/-- Python `k in d`. -/
def containsKey (r : Record) (key : String) : Bool :=
  (recordGet r key).isSome

/-- Python `d[k] = v`: update in place (keeping the key's position) if the
key exists, else append at the end. -/
def recordSet : Record → String → Json → Record
  | [], key, v => [(key, v)]
  | (k, v') :: rest, key, v =>
      if key = k then (key, v) :: rest else (k, v') :: recordSet rest key v

/- ---------------------------------------------------------------------
Python string primitives used by `parse_llm_output`.
Strings are manipulated through their character lists; indices are `ℤ`
because Python's `str.find` returns `-1` on failure and slice bounds may
be negative.
--------------------------------------------------------------------- -/

/-- First index at or after `i` where `ned` occurs as a sublist of `hay`
(both already dropped to position `i`); `none` if absent. -/
def listFindSub : List Char → List Char → Nat → Option Nat
  | hay, ned, i =>
    if ned.isPrefixOf hay then some i
    else
      match hay with
      | [] => none
      | _ :: rest => listFindSub rest ned (i + 1)

/-- Python `s.find(sub, start)` for `start ≥ 0`: lowest index `≥ start`
where `sub` occurs, else `-1`. -/
def pyFindFrom (s sub : String) (start : ℤ) : ℤ :=
  let st : Nat := start.toNat
  match listFindSub (s.toList.drop st) sub.toList st with
  | some i => (i : ℤ)
  | none => -1

/-- Python `s.find(sub)`. -/
def pyFind (s sub : String) : ℤ := pyFindFrom s sub 0

/-- Python `sub in s`. -/
def pyContains (s sub : String) : Bool := pyFind s sub ≥ 0

/-- Highest index where `sub` occurs in `hay`, scanning the whole list. -/
def listRFindSub : List Char → List Char → Nat → Option Nat → Option Nat
  | hay, ned, i, best =>
    let best' := if ned.isPrefixOf hay then some i else best
    match hay with
    | [] => best'
    | _ :: rest => listRFindSub rest ned (i + 1) best'

/-- Python `s.rfind(sub)`: highest index where `sub` occurs, else `-1`. -/
def pyRFind (s sub : String) : ℤ :=
  match listRFindSub s.toList sub.toList 0 none with
  | some i => (i : ℤ)
  | none => -1

/-- Normalize one Python slice bound against a length. -/
def pySliceBound (len : Nat) (i : ℤ) : Nat :=
  if i < 0 then (i + len).toNat else min i.toNat len

/-- Python `s[a:b]` (step 1), with negative-index wrapping and clamping. -/
def pySlice (s : String) (a b : ℤ) : String :=
  let cs := s.toList
  let lo := pySliceBound cs.length a
  let hi := pySliceBound cs.length b
  String.mk ((cs.take hi).drop lo)

/-- The whitespace set stripped by Python's `str.strip()` (ASCII part). -/
def pyIsSpace (c : Char) : Bool :=
  c = ' ' ∨ c = '\t' ∨ c = '\n' ∨ c = '\r' ∨ c = Char.ofNat 11 ∨ c = Char.ofNat 12

/-- Python `s.strip()`. -/
def pyStrip (s : String) : String :=
  String.mk (((s.toList.dropWhile pyIsSpace).reverse.dropWhile pyIsSpace).reverse)

/- ---------------------------------------------------------------------
`json.loads`, modelled as a recursive-descent parser over `List Char`.
Restrictions of the model (no code path or claim below depends on them):
the `NaN`/`Infinity` extensions are not modelled, `\uXXXX` escapes are
mapped code-unit-wise (surrogate pairs are not combined).
--------------------------------------------------------------------- -/

/-- The JSON whitespace characters skipped by Python's json decoder. -/
def jsonWSChar (c : Char) : Bool :=
  c = ' ' ∨ c = '\t' ∨ c = '\n' ∨ c = '\r'

def jsonSkipWS (cs : List Char) : List Char := cs.dropWhile jsonWSChar

def quoteChar : Char := Char.ofNat 34

def backslashChar : Char := Char.ofNat 92

def lbraceChar : Char := Char.ofNat 123

def rbraceChar : Char := Char.ofNat 125

def hexVal (c : Char) : Option ℕ :=
  if c.isDigit then some (c.toNat - 48)
  else if 97 ≤ c.toNat ∧ c.toNat ≤ 102 then some (c.toNat - 87)
  else if 65 ≤ c.toNat ∧ c.toNat ≤ 70 then some (c.toNat - 55)
  else none

/-- Body of a JSON string literal, after the opening quote. -/
def jsonParseStringBody : ℕ → List Char → List Char → Except String (String × List Char)
  | 0, _, _ => .error "string fuel exhausted"
  | _ + 1, _, [] => .error "Unterminated string"
  | fuel + 1, acc, c :: rest =>
    if c = quoteChar then .ok (String.mk acc.reverse, rest)
    else if c = backslashChar then
      match rest with
      | [] => .error "Unterminated string"
      | e :: rest2 =>
        if e = quoteChar then jsonParseStringBody fuel (quoteChar :: acc) rest2
        else if e = backslashChar then jsonParseStringBody fuel (backslashChar :: acc) rest2
        else if e = '/' then jsonParseStringBody fuel ('/' :: acc) rest2
        else if e = 'b' then jsonParseStringBody fuel (Char.ofNat 8 :: acc) rest2
        else if e = 'f' then jsonParseStringBody fuel (Char.ofNat 12 :: acc) rest2
        else if e = 'n' then jsonParseStringBody fuel ('\n' :: acc) rest2
        else if e = 'r' then jsonParseStringBody fuel ('\r' :: acc) rest2
        else if e = 't' then jsonParseStringBody fuel ('\t' :: acc) rest2
        else if e = 'u' then
          match rest2 with
          | h1 :: h2 :: h3 :: h4 :: rest6 =>
            match hexVal h1, hexVal h2, hexVal h3, hexVal h4 with
            | some a, some b, some c3, some d =>
                jsonParseStringBody fuel (Char.ofNat (((a * 16 + b) * 16 + c3) * 16 + d) :: acc) rest6
            | _, _, _, _ => .error "Invalid hex escape"
          | _ => .error "Invalid hex escape"
        else .error "Invalid escape"
    else if c.toNat < 32 then .error "Invalid control character"
    else jsonParseStringBody fuel (c :: acc) rest

def natOfDigits (ds : List Char) : ℕ :=
  ds.foldl (fun n c => n * 10 + (c.toNat - 48)) 0

/-- Optional exponent part of a JSON number; yields 0 if absent. -/
def jsonParseExp : List Char → Except String (ℤ × List Char)
  | [] => .ok (0, [])
  | c :: rest =>
    if c = 'e' ∨ c = 'E' then
      let (sgn, cs2) :=
        match rest with
        | s :: rest2 =>
          if s = '+' then ((1 : ℤ), rest2)
          else if s = '-' then ((-1 : ℤ), rest2)
          else ((1 : ℤ), rest)
        | [] => ((1 : ℤ), rest)
      let eds := cs2.takeWhile Char.isDigit
      if eds = [] then .error "Expecting digits in exponent"
      else .ok (sgn * (natOfDigits eds : ℤ), cs2.dropWhile Char.isDigit)
    else .ok (0, c :: rest)

/-- Optional fraction part of a JSON number; yields 0 if absent. -/
def jsonParseFrac : List Char → Except String (ℚ × List Char)
  | [] => .ok (0, [])
  | c :: rest =>
    if c = '.' then
      let fds := rest.takeWhile Char.isDigit
      if fds = [] then .error "Expecting digits in fraction"
      else .ok ((natOfDigits fds : ℚ) / (10 : ℚ) ^ fds.length, rest.dropWhile Char.isDigit)
    else .ok (0, c :: rest)

/-- A JSON number (int part with the no-leading-zero rule, optional
fraction and exponent), as a rational. -/
def jsonParseNumber (cs : List Char) : Except String (ℚ × List Char) :=
  let (neg, cs1) :=
    match cs with
    | c :: rest => if c = '-' then (true, rest) else (false, cs)
    | [] => (false, cs)
  match cs1 with
  | [] => .error "Expecting value"
  | c :: rest =>
    if ¬ c.isDigit then .error "Expecting value"
    else
      let (ids, cs2) :=
        if c = '0' then ([c], rest)
        else (cs1.takeWhile Char.isDigit, cs1.dropWhile Char.isDigit)
      match jsonParseFrac cs2 with
      | .error m => .error m
      | .ok (fpart, cs3) =>
        match jsonParseExp cs3 with
        | .error m => .error m
        | .ok (ex, cs4) =>
          let mag : ℚ := ((natOfDigits ids : ℚ) + fpart) * (10 : ℚ) ^ ex
          .ok (if neg then -mag else mag, cs4)

mutual

/-- One JSON value, starting at (possibly whitespace-padded) `cs`. -/
def jsonParseVal : ℕ → List Char → Except String (Json × List Char)
  | 0, _ => .error "json fuel exhausted"
  | fuel + 1, cs0 =>
    let cs := jsonSkipWS cs0
    match cs with
    | [] => .error "Expecting value"
    | c :: rest =>
      if c = lbraceChar then
        let cs1 := jsonSkipWS rest
        match cs1 with
        | d :: rest1 =>
          if d = rbraceChar then .ok (.obj [], rest1) else jsonParseMembers fuel [] cs1
        | [] => .error "Expecting property name"
      else if c = '[' then
        let cs1 := jsonSkipWS rest
        match cs1 with
        | d :: rest1 =>
          if d = ']' then .ok (.arr [], rest1) else jsonParseElems fuel [] cs1
        | [] => .error "Expecting value"
      else if c = quoteChar then
        match jsonParseStringBody (rest.length + 1) [] rest with
        | .ok (s, rest1) => .ok (.str s, rest1)
        | .error m => .error m
      else if List.isPrefixOf "true".toList cs then .ok (.bool true, cs.drop 4)
      else if List.isPrefixOf "false".toList cs then .ok (.bool false, cs.drop 5)
      else if List.isPrefixOf "null".toList cs then .ok (.null, cs.drop 4)
      else
        match jsonParseNumber cs with
        | .ok (q, cs1) => .ok (.num q, cs1)
        | .error m => .error m

/-- The members of a JSON object, starting at the first key; duplicate
keys overwrite in place, as in a Python dict. -/
def jsonParseMembers : ℕ → Record → List Char → Except String (Json × List Char)
  | 0, _, _ => .error "json fuel exhausted"
  | fuel + 1, acc, cs0 =>
    let cs := jsonSkipWS cs0
    match cs with
    | [] => .error "Expecting property name"
    | c :: rest =>
      if c = quoteChar then
        match jsonParseStringBody (rest.length + 1) [] rest with
        | .error m => .error m
        | .ok (key, cs1) =>
          let cs2 := jsonSkipWS cs1
          match cs2 with
          | d :: rest2 =>
            if d = ':' then
              match jsonParseVal fuel rest2 with
              | .error m => .error m
              | .ok (v, cs3) =>
                let acc2 := recordSet acc key v
                let cs4 := jsonSkipWS cs3
                match cs4 with
                | e :: rest4 =>
                  if e = ',' then jsonParseMembers fuel acc2 rest4
                  else if e = rbraceChar then .ok (.obj acc2, rest4)
                  else .error "Expecting delimiter"
                | [] => .error "Expecting delimiter"
            else .error "Expecting colon"
          | [] => .error "Expecting colon"
      else .error "Expecting property name"

/-- The elements of a JSON array, starting at the first element. -/
def jsonParseElems : ℕ → List Json → List Char → Except String (Json × List Char)
  | 0, _, _ => .error "json fuel exhausted"
  | fuel + 1, acc, cs0 =>
    match jsonParseVal fuel cs0 with
    | .error m => .error m
    | .ok (v, cs1) =>
      let acc2 := acc ++ [v]
      let cs2 := jsonSkipWS cs1
      match cs2 with
      | e :: rest2 =>
        if e = ',' then jsonParseElems fuel acc2 rest2
        else if e = ']' then .ok (.arr acc2, rest2)
        else .error "Expecting delimiter"
      | [] => .error "Expecting delimiter"

end

/-- Python `json.loads`: parse one JSON document, reject trailing data. -/
def json_loads (s : String) : Except String Json :=
  match jsonParseVal (2 * s.length + 2) s.toList with
  | .error m => .error m
  | .ok (v, rest) =>
    if jsonSkipWS rest = [] then .ok v else .error "Extra data"

/- ---------------------------------------------------------------------
Python exceptions crossing the pipeline boundaries.
`json.JSONDecodeError` is a subclass of `ValueError` in Python, which is
exactly why `isValueError` is true for it; `tenacity.RetryError` (raised
when the retry ceiling is exhausted, since `reraise` defaults to `False`)
wraps the last attempt's exception.  A non-dict extraction result aborts
`normalize_intent_data` with a Python-level attribute/type error,
collapsed here into one constructor.
--------------------------------------------------------------------- -/

inductive PyExc where
  | valueError (msg : String) : PyExc
  | jsonDecodeError (msg : String) : PyExc
  | importError (msg : String) : PyExc
  | apiError (msg : String) : PyExc
  | typeError (msg : String) : PyExc
  | retryError (last : PyExc) : PyExc
deriving DecidableEq

/-- Python `isinstance(e, ValueError)` for the exceptions above
(`json.JSONDecodeError` derives from `ValueError`). -/
def PyExc.isValueError : PyExc → Bool
  | .valueError _ => true
  | .jsonDecodeError _ => true
  | _ => false

/-- Python `str(e)` (model-level message; for `RetryError` the text is a
stand-in for tenacity's `RetryError[<Future ...>]` rendering). -/
def PyExc.pyStr : PyExc → String
  | .valueError m => m
  | .jsonDecodeError m => m
  | .importError m => m
  | .apiError m => m
  | .typeError m => m
  | .retryError last => "RetryError[" ++ last.pyStr ++ "]"

/- ---------------------------------------------------------------------
`parse_llm_output` (llm_service.py lines 243-271), statement by
statement.  The inner `json.loads` calls are NOT inside the
`except json.JSONDecodeError` handler: a parse failure of a fenced
block's interior or of the brace substring propagates to the caller.
--------------------------------------------------------------------- -/

def parse_llm_output (raw_output : String) : Except PyExc Json :=
  match json_loads raw_output with
  | .ok v => .ok v
  | .error _ =>
    if pyContains raw_output "```json" then
      let start := pyFind raw_output "```json" + 7
      let stop := pyFindFrom raw_output "```" start
      let json_str := pyStrip (pySlice raw_output start stop)
      (json_loads json_str).mapError PyExc.jsonDecodeError
    else if pyContains raw_output "```" then
      let start := pyFind raw_output "```" + 3
      let stop := pyFindFrom raw_output "```" start
      let json_str := pyStrip (pySlice raw_output start stop)
      (json_loads json_str).mapError PyExc.jsonDecodeError
    else
      let start := pyFind raw_output "\x7b"
      let stop := pyRFind raw_output "\x7d" + 1
      if start ≠ -1 ∧ stop > start then
        (json_loads (pySlice raw_output start stop)).mapError PyExc.jsonDecodeError
      else
        .error (.valueError "Could not extract valid JSON from LLM output")

/- ---------------------------------------------------------------------
`normalize_intent_data` (llm_service.py lines 274-366), one definition
per commented block of the source.  CPython dict mutation in place keeps
the key's position, which is what `recordSet` does.
--------------------------------------------------------------------- -/

/-- The `for entity in entities` loop: strings become
`(type=ENTITY, name=s)` objects, dicts with `name` but no `type` get
`type=ENTITY` appended, other dicts pass through, anything else is not
appended to `fixed_entities` at all. -/
def fixEntities : List Json → List Json
  | [] => []
  | .str s :: rest =>
      .obj [("type", .str "ENTITY"), ("name", .str s)] :: fixEntities rest
  | .obj flds :: rest =>
      .obj (if containsKey flds "name" && !containsKey flds "type"
            then flds ++ [("type", .str "ENTITY")] else flds) :: fixEntities rest
  | _ :: rest => fixEntities rest

/-- `# Fix entities_involved` block. -/
def fixEntitiesStep (normalized : Record) : Record :=
  match recordGet normalized "entities_involved" with
  | some (.arr entities) =>
      recordSet normalized "entities_involved" (.arr (fixEntities entities))
  | some _ => normalized
  | none => normalized

/-- `# Fix payload` block. -/
def fixPayloadStep (normalized : Record) : Record :=
  match recordGet normalized "payload" with
  | some (.obj payload) =>
      if !containsKey payload "explicit" && !containsKey payload "implicit" then
        recordSet normalized "payload"
          (.obj [("explicit", .obj payload), ("implicit", .obj [])])
      else
        let p1 := if containsKey payload "explicit" then payload
                  else recordSet payload "explicit" (.obj [])
        let p2 := if containsKey p1 "implicit" then p1
                  else recordSet p1 "implicit" (.obj [])
        recordSet normalized "payload" (.obj p2)
  | some _ => normalized
  | none =>
      recordSet normalized "payload" (.obj [("explicit", .obj []), ("implicit", .obj [])])

/-- `# Fix constraints` block. -/
def fixConstraintsStep (normalized : Record) : Record :=
  match recordGet normalized "constraints" with
  | some (.obj constraints) =>
      let c1 := if containsKey constraints "must_not_override_existing" then constraints
                else recordSet constraints "must_not_override_existing" (.bool true)
      let c2 := if containsKey c1 "additional_constraints" then c1
                else recordSet c1 "additional_constraints" (.obj [])
      recordSet normalized "constraints" (.obj c2)
  | some _ => normalized
  | none =>
      recordSet normalized "constraints"
        (.obj [("must_not_override_existing", .bool true), ("additional_constraints", .obj [])])

/-- `# Fix validation_requirements` block. -/
def fixValReqsStep (normalized : Record) : Record :=
  match recordGet normalized "validation_requirements" with
  | some (.obj val_reqs) =>
      let v1 := if containsKey val_reqs "schema_validation" then val_reqs
                else recordSet val_reqs "schema_validation" (.bool true)
      let v2 := if containsKey v1 "duplicate_check" then v1
                else recordSet v1 "duplicate_check" (.bool true)
      let v3 := if containsKey v2 "additional_validations" then v2
                else recordSet v2 "additional_validations" (.obj [])
      recordSet normalized "validation_requirements" (.obj v3)
  | some _ => normalized
  | none =>
      recordSet normalized "validation_requirements"
        (.obj [("schema_validation", .bool true), ("duplicate_check", .bool true),
               ("additional_validations", .obj [])])

/-- `# Ensure default values for optional fields` block. -/
def fixDefaultsStep (normalized : Record) : Record :=
  let n1 := if containsKey normalized "assumptions" then normalized
            else recordSet normalized "assumptions" (.arr [])
  let n2 := if containsKey n1 "ambiguities" then n1
            else recordSet n1 "ambiguities" (.arr [])
  if containsKey n2 "suggestions" then n2
  else recordSet n2 "suggestions" (.arr [])

def normalize_intent_data (intent_data : Record) : Record :=
  fixDefaultsStep (fixValReqsStep (fixConstraintsStep (fixPayloadStep (fixEntitiesStep intent_data))))

/-- The `# Ensure intent_id and domain_pack_id are set` block of
`generate_intent` (llm_service.py lines 414-419); `freshId` stands for
the nondeterministic `str(uuid.uuid4())`. -/
def ensureIds (freshId domain_pack_id : String) (intent_data : Record) : Record :=
  let d1 := if containsKey intent_data "intent_id" then intent_data
            else recordSet intent_data "intent_id" (.str freshId)
  if containsKey d1 "domain_pack_id" then d1
  else recordSet d1 "domain_pack_id" (.str domain_pack_id)

/- ---------------------------------------------------------------------
The retry policy: `@retry(stop=stop_after_attempt(3),
wait=wait_exponential(multiplier=1, min=2, max=10))` on each provider's
`generate`.  Modelled from tenacity's semantics: attempts are numbered
from 1; after a failed attempt `n` the loop stops and raises
`RetryError(last_attempt)` (the default is `reraise=False`) as soon as
`n ≥ max_attempt_number`, otherwise it sleeps
`max(max(0, min), min(multiplier * 2^(n-1), max))` seconds and retries.
The nondeterministic backend call is the parameter `action`, mapping the
attempt number to that attempt's outcome.
--------------------------------------------------------------------- -/

structure RetryTrace (α : Type) where
  result : Except PyExc α
  attempts : ℕ
  delays : List ℚ

/-- tenacity `wait_exponential(multiplier, min, max)` (exp_base = 2) at
a given 1-based attempt number. -/
def wait_exponential (multiplier mn mx : ℚ) (attempt_number : ℕ) : ℚ :=
  max (max 0 mn) (min (multiplier * (2 : ℚ) ^ (attempt_number - 1)) mx)

def retryGo {α : Type} (wait : ℕ → ℚ) (maxAttempt : ℕ) (action : ℕ → Except PyExc α) :
    ℕ → ℕ → List ℚ → RetryTrace α
  | fuel, n, ds =>
    match action n with
    | .ok a => ⟨.ok a, n, ds⟩
    | .error e =>
      if n ≥ maxAttempt then ⟨.error (.retryError e), n, ds⟩
      else
        match fuel with
        | 0 => ⟨.error (.retryError e), n, ds⟩
        | fuel + 1 => retryGo wait maxAttempt action fuel (n + 1) (ds ++ [wait n])

/-- Run `action` under the retry policy; besides the result, the trace
records how many attempts were made and the backoff delays slept. -/
def retryRun {α : Type} (wait : ℕ → ℚ) (maxAttempt : ℕ) (action : ℕ → Except PyExc α) :
    RetryTrace α :=
  retryGo wait maxAttempt action maxAttempt 1 []

/- ---------------------------------------------------------------------
Provider construction and selection (llm_service.py lines 121-240).
A credential is a Python string-or-None setting; `None` and `""` are
both falsy.  Construction is NOT wrapped by the retry decorator: only
`generate` is.
--------------------------------------------------------------------- -/

def credentialPresent : Option String → Bool
  | none => false
  | some k => !(k = "")

structure Settings where
  LLM_PROVIDER : String
  OPENAI_API_KEY : Option String
  GROQ_API_KEY : Option String
  ANTHROPIC_API_KEY : Option String

def pyLower (s : String) : String := String.mk (s.toList.map Char.toLower)

/-- `OpenAIProvider.__init__` / `GroqProvider.__init__` /
`AnthropicProvider.__init__`: raise `ValueError` when the variant's
credential is absent, before any network call. -/
def providerInit (keyName : String) (key : Option String) : Except PyExc Unit :=
  if credentialPresent key then .ok ()
  else .error (.valueError (keyName ++ " not configured"))

/-- `get_llm_provider`: selects the variant by `settings.LLM_PROVIDER`
(lower-cased); an unsupported name is a `ValueError` distinct from a
missing credential's message. -/
def get_llm_provider (settings : Settings) : Except PyExc Unit :=
  let provider_name := pyLower settings.LLM_PROVIDER
  if provider_name = "openai" then providerInit "OPENAI_API_KEY" settings.OPENAI_API_KEY
  else if provider_name = "groq" then providerInit "GROQ_API_KEY" settings.GROQ_API_KEY
  else if provider_name = "anthropic" then providerInit "ANTHROPIC_API_KEY" settings.ANTHROPIC_API_KEY
  else .error (.valueError ("Unsupported LLM provider: " ++ provider_name))

/- ---------------------------------------------------------------------
`generate_intent` (llm_service.py lines 369-426): select the provider,
invoke the backend through the retry policy, extract, normalize, fill in
`intent_id` / `domain_pack_id`.  Besides the result, the trace of backend
attempts is returned so that "zero attempts before a construction-time
failure" is a provable statement.  `freshId` stands for
`str(uuid.uuid4())`.
--------------------------------------------------------------------- -/

structure GenerateTrace where
  result : Except PyExc Record
  attempts : ℕ
  delays : List ℚ

def generate_intent (settings : Settings) (action : ℕ → Except PyExc String)
    (freshId domain_pack_id : String) : GenerateTrace :=
  match get_llm_provider settings with
  | .error e => ⟨.error e, 0, []⟩
  | .ok _ =>
    let trace := retryRun (wait_exponential 1 2 10) 3 action
    match trace.result with
    | .error e => ⟨.error e, trace.attempts, trace.delays⟩
    | .ok raw_output =>
      match parse_llm_output raw_output with
      | .error e => ⟨.error e, trace.attempts, trace.delays⟩
      | .ok (.obj flds) =>
          ⟨.ok (ensureIds freshId domain_pack_id (normalize_intent_data flds)),
           trace.attempts, trace.delays⟩
      | .ok _ =>
          ⟨.error (.typeError "intent_data is not a dict"), trace.attempts, trace.delays⟩

/- ---------------------------------------------------------------------
The pydantic models of `backend/schemas/intention.py`, as Lean types.
--------------------------------------------------------------------- -/

inductive TargetSection where
  | name | description | version | entities | key_terms | entity_aliases
  | extraction_patterns | business_context | relationship_types | relationships
  | business_patterns | reasoning_templates | multihop_questions
  | question_templates | business_rules | validation_rules
deriving DecidableEq

def TargetSection.toStr : TargetSection → String
  | .name => "name"
  | .description => "description"
  | .version => "version"
  | .entities => "entities"
  | .key_terms => "key_terms"
  | .entity_aliases => "entity_aliases"
  | .extraction_patterns => "extraction_patterns"
  | .business_context => "business_context"
  | .relationship_types => "relationship_types"
  | .relationships => "relationships"
  | .business_patterns => "business_patterns"
  | .reasoning_templates => "reasoning_templates"
  | .multihop_questions => "multihop_questions"
  | .question_templates => "question_templates"
  | .business_rules => "business_rules"
  | .validation_rules => "validation_rules"

def TargetSection.ofString (s : String) : Option TargetSection :=
  if s = "name" then some .name
  else if s = "description" then some .description
  else if s = "version" then some .version
  else if s = "entities" then some .entities
  else if s = "key_terms" then some .key_terms
  else if s = "entity_aliases" then some .entity_aliases
  else if s = "extraction_patterns" then some .extraction_patterns
  else if s = "business_context" then some .business_context
  else if s = "relationship_types" then some .relationship_types
  else if s = "relationships" then some .relationships
  else if s = "business_patterns" then some .business_patterns
  else if s = "reasoning_templates" then some .reasoning_templates
  else if s = "multihop_questions" then some .multihop_questions
  else if s = "question_templates" then some .question_templates
  else if s = "business_rules" then some .business_rules
  else if s = "validation_rules" then some .validation_rules
  else none

inductive Operation where
  | ADD | UPDATE | DELETE | MERGE | SPLIT | REORDER
deriving DecidableEq

def Operation.toStr : Operation → String
  | .ADD => "ADD"
  | .UPDATE => "UPDATE"
  | .DELETE => "DELETE"
  | .MERGE => "MERGE"
  | .SPLIT => "SPLIT"
  | .REORDER => "REORDER"

def Operation.ofString (s : String) : Option Operation :=
  if s = "ADD" then some .ADD
  else if s = "UPDATE" then some .UPDATE
  else if s = "DELETE" then some .DELETE
  else if s = "MERGE" then some .MERGE
  else if s = "SPLIT" then some .SPLIT
  else if s = "REORDER" then some .REORDER
  else none

inductive ExecutionRisk where
  | LOW | MEDIUM | HIGH
deriving DecidableEq

def ExecutionRisk.toStr : ExecutionRisk → String
  | .LOW => "LOW"
  | .MEDIUM => "MEDIUM"
  | .HIGH => "HIGH"

def ExecutionRisk.ofString (s : String) : Option ExecutionRisk :=
  if s = "LOW" then some .LOW
  else if s = "MEDIUM" then some .MEDIUM
  else if s = "HIGH" then some .HIGH
  else none

structure EntityInvolved where
  type : String
  name : String
deriving DecidableEq

structure IntentPayload where
  explicit : Record
  implicit : Record

structure IntentConstraints where
  must_not_override_existing : Bool
  additional_constraints : Record

structure ValidationRequirements where
  schema_validation : Bool
  duplicate_check : Bool
  additional_validations : List (String × Bool)

/-- The typed value a successful `IntentionSchema(**intent_data)` call
produces (the canonical StructuredIntent of the spec; `intent_summary`
is the spec's `summary`, `domain_pack_id` its `target_identifier`,
`type` its `kind`). -/
structure IntentionSchema where
  intent_id : String
  domain_pack_id : String
  target_section : TargetSection
  operation : Operation
  intent_summary : String
  confidence : ℚ
  entities_involved : List EntityInvolved
  payload : IntentPayload
  constraints : IntentConstraints
  assumptions : List String
  ambiguities : List String
  suggestions : List String
  validation_requirements : ValidationRequirements
  execution_risk : ExecutionRisk

/-- The range invariant that the types above do not capture: pydantic
enforces `0.0 <= confidence <= 1.0` (`Field(ge=..., le=...)` plus the
`validate_confidence` field validator, both inclusive). -/
def IntentionSchema.Valid (v : IntentionSchema) : Prop :=
  0 ≤ v.confidence ∧ v.confidence ≤ 1

/-- `model_dump()` of an `EntityInvolved`. -/
def EntityInvolved.encode (e : EntityInvolved) : Json :=
  .obj [("type", .str e.type), ("name", .str e.name)]

/-- `model_dump()` of an `IntentionSchema`: the dict representation of a
typed value, fields in declaration order, sub-models as dicts. -/
def IntentionSchema.encode (v : IntentionSchema) : Record :=
  [("intent_id", .str v.intent_id),
   ("domain_pack_id", .str v.domain_pack_id),
   ("target_section", .str v.target_section.toStr),
   ("operation", .str v.operation.toStr),
   ("intent_summary", .str v.intent_summary),
   ("confidence", .num v.confidence),
   ("entities_involved", .arr (v.entities_involved.map EntityInvolved.encode)),
   ("payload", .obj [("explicit", .obj v.payload.explicit),
                     ("implicit", .obj v.payload.implicit)]),
   ("constraints", .obj [("must_not_override_existing", .bool v.constraints.must_not_override_existing),
                         ("additional_constraints", .obj v.constraints.additional_constraints)]),
   ("assumptions", .arr (v.assumptions.map Json.str)),
   ("ambiguities", .arr (v.ambiguities.map Json.str)),
   ("suggestions", .arr (v.suggestions.map Json.str)),
   ("validation_requirements",
      .obj [("schema_validation", .bool v.validation_requirements.schema_validation),
            ("duplicate_check", .bool v.validation_requirements.duplicate_check),
            ("additional_validations",
               .obj (v.validation_requirements.additional_validations.map
                       (fun p => (p.1, Json.bool p.2))))]),
   ("execution_risk", .str v.execution_risk.toStr)]

/- ---------------------------------------------------------------------
`IntentionSchema(**intent_data)`: pydantic validation, field by field.
On failure pydantic raises a `ValidationError` carrying the collected
`(loc, msg)` pairs of every failing field, `loc` being the dotted /
indexed path; validation here returns `Except Errs` with the same
information instead of raising.  Lax-mode coercions that no value in
this pipeline can trigger (numeric strings to float, `"true"` to bool,
ints to str …) are not modelled: fields accept exactly the canonical
runtime type, as the strict checks of the source do.
--------------------------------------------------------------------- -/

abbrev Errs := List (List String × String)

def errsOf {α : Type} : Except Errs α → Errs
  | .ok _ => []
  | .error es => es

/-- `intent_id`: `str`, with `default_factory=lambda: str(uuid.uuid4())`;
the nondeterministic fresh token is the `freshId` parameter. -/
def vIntentId (freshId : String) (r : Record) : Except Errs String :=
  match recordGet r "intent_id" with
  | none => .ok freshId
  | some (.str s) => .ok s
  | some _ => .error [(["intent_id"], "Input should be a valid string")]

/-- A required plain-`str` field. -/
def vRequiredStr (k : String) (r : Record) : Except Errs String :=
  match recordGet r k with
  | none => .error [([k], "Field required")]
  | some (.str s) => .ok s
  | some _ => .error [([k], "Input should be a valid string")]

/-- `target_section`: required member of the `TargetSection` str-enum. -/
def vTargetSection (r : Record) : Except Errs TargetSection :=
  match recordGet r "target_section" with
  | none => .error [(["target_section"], "Field required")]
  | some (.str s) =>
    match TargetSection.ofString s with
    | some t => .ok t
    | none => .error [(["target_section"], "Input should be a valid TargetSection")]
  | some _ => .error [(["target_section"], "Input should be a valid TargetSection")]

/-- `operation`: required member of the `Operation` str-enum. -/
def vOperation (r : Record) : Except Errs Operation :=
  match recordGet r "operation" with
  | none => .error [(["operation"], "Field required")]
  | some (.str s) =>
    match Operation.ofString s with
    | some op => .ok op
    | none => .error [(["operation"], "Input should be a valid Operation")]
  | some _ => .error [(["operation"], "Input should be a valid Operation")]

/-- `execution_risk`: required member of the `ExecutionRisk` str-enum. -/
def vExecutionRisk (r : Record) : Except Errs ExecutionRisk :=
  match recordGet r "execution_risk" with
  | none => .error [(["execution_risk"], "Field required")]
  | some (.str s) =>
    match ExecutionRisk.ofString s with
    | some er => .ok er
    | none => .error [(["execution_risk"], "Input should be a valid ExecutionRisk")]
  | some _ => .error [(["execution_risk"], "Input should be a valid ExecutionRisk")]

/-- `confidence`: required float with `ge=0.0`, `le=1.0` (both closed;
the `validate_confidence` field validator re-checks the same closed
interval and returns the value unchanged — nothing is clamped). -/
def vConfidence (r : Record) : Except Errs ℚ :=
  match recordGet r "confidence" with
  | none => .error [(["confidence"], "Field required")]
  | some (.num q) =>
    if q < 0 then .error [(["confidence"], "Input should be greater than or equal to 0")]
    else if 1 < q then .error [(["confidence"], "Input should be less than or equal to 1")]
    else .ok q
  | some _ => .error [(["confidence"], "Input should be a valid number")]

def vEntityField (i : ℕ) (flds : Record) (k : String) : Except Errs String :=
  match recordGet flds k with
  | none => .error [(["entities_involved", toString i, k], "Field required")]
  | some (.str s) => .ok s
  | some _ => .error [(["entities_involved", toString i, k], "Input should be a valid string")]

def vEntity (i : ℕ) : Json → Except Errs EntityInvolved
  | .obj flds =>
    match vEntityField i flds "type", vEntityField i flds "name" with
    | .ok t, .ok n => .ok ⟨t, n⟩
    | a, b => .error (errsOf a ++ errsOf b)
  | _ => .error [(["entities_involved", toString i],
                  "Input should be a valid dictionary or instance of EntityInvolved")]

def vEntityElems (i : ℕ) : List Json → Except Errs (List EntityInvolved)
  | [] => .ok []
  | j :: rest =>
    match vEntity i j, vEntityElems (i + 1) rest with
    | .ok e, .ok es => .ok (e :: es)
    | a, b => .error (errsOf a ++ errsOf b)

/-- `entities_involved`: `List[EntityInvolved]` with `default_factory=list`. -/
def vEntities (r : Record) : Except Errs (List EntityInvolved) :=
  match recordGet r "entities_involved" with
  | none => .ok []
  | some (.arr js) => vEntityElems 0 js
  | some _ => .error [(["entities_involved"], "Input should be a valid list")]

/-- A `Dict[str, Any]` sub-field with `default_factory=dict`. -/
def vSubDict (path : List String) : Option Json → Except Errs Record
  | none => .ok []
  | some (.obj flds) => .ok flds
  | some _ => .error [(path, "Input should be a valid dictionary")]

/-- A `bool` sub-field with a literal default. -/
def vSubBool (path : List String) (dflt : Bool) : Option Json → Except Errs Bool
  | none => .ok dflt
  | some (.bool b) => .ok b
  | some _ => .error [(path, "Input should be a valid boolean")]

/-- `payload`: required `IntentPayload` sub-model. -/
def vPayload (r : Record) : Except Errs IntentPayload :=
  match recordGet r "payload" with
  | none => .error [(["payload"], "Field required")]
  | some (.obj flds) =>
    match vSubDict ["payload", "explicit"] (recordGet flds "explicit"),
          vSubDict ["payload", "implicit"] (recordGet flds "implicit") with
    | .ok ex, .ok im => .ok ⟨ex, im⟩
    | a, b => .error (errsOf a ++ errsOf b)
  | some _ => .error [(["payload"],
                       "Input should be a valid dictionary or instance of IntentPayload")]

/-- `constraints`: `IntentConstraints` sub-model with a full default. -/
def vConstraints (r : Record) : Except Errs IntentConstraints :=
  match recordGet r "constraints" with
  | none => .ok ⟨true, []⟩
  | some (.obj flds) =>
    match vSubBool ["constraints", "must_not_override_existing"] true
            (recordGet flds "must_not_override_existing"),
          vSubDict ["constraints", "additional_constraints"]
            (recordGet flds "additional_constraints") with
    | .ok b, .ok ac => .ok ⟨b, ac⟩
    | a, b => .error (errsOf a ++ errsOf b)
  | some _ => .error [(["constraints"],
                       "Input should be a valid dictionary or instance of IntentConstraints")]

def vStrElem (k : String) (i : ℕ) : Json → Except Errs String
  | .str s => .ok s
  | _ => .error [([k, toString i], "Input should be a valid string")]

def vStrElems (k : String) (i : ℕ) : List Json → Except Errs (List String)
  | [] => .ok []
  | j :: rest =>
    match vStrElem k i j, vStrElems k (i + 1) rest with
    | .ok s, .ok ss => .ok (s :: ss)
    | a, b => .error (errsOf a ++ errsOf b)

/-- A `List[str]` field with `default_factory=list`
(`assumptions`, `ambiguities`, `suggestions`). -/
def vStrListField (k : String) (r : Record) : Except Errs (List String) :=
  match recordGet r k with
  | none => .ok []
  | some (.arr js) => vStrElems k 0 js
  | some _ => .error [([k], "Input should be a valid list")]

def vBoolPairs : List (String × Json) → Except Errs (List (String × Bool))
  | [] => .ok []
  | (k, v) :: rest =>
    match vSubBool ["validation_requirements", "additional_validations", k] true (some v),
          vBoolPairs rest with
    | .ok b, .ok bs => .ok ((k, b) :: bs)
    | a, b => .error (errsOf a ++ errsOf b)

/-- `validation_requirements`: `ValidationRequirements` sub-model with a
full default; `additional_validations` is `Dict[str, bool]`. -/
def vValReqs (r : Record) : Except Errs ValidationRequirements :=
  match recordGet r "validation_requirements" with
  | none => .ok ⟨true, true, []⟩
  | some (.obj flds) =>
    match vSubBool ["validation_requirements", "schema_validation"] true
            (recordGet flds "schema_validation"),
          vSubBool ["validation_requirements", "duplicate_check"] true
            (recordGet flds "duplicate_check"),
          (match recordGet flds "additional_validations" with
           | none => (.ok [] : Except Errs (List (String × Bool)))
           | some (.obj ps) => vBoolPairs ps
           | some _ => .error [(["validation_requirements", "additional_validations"],
                                "Input should be a valid dictionary")]) with
    | .ok sv, .ok dc, .ok av => .ok ⟨sv, dc, av⟩
    | a, b, c => .error (errsOf a ++ errsOf b ++ errsOf c)
  | some _ => .error [(["validation_requirements"],
                       "Input should be a valid dictionary or instance of ValidationRequirements")]

/-- `IntentionSchema(**r)`: validate every field, collect all errors. -/
def IntentionSchema.validate (freshId : String) (r : Record) :
    Except Errs IntentionSchema :=
  let f1 := vIntentId freshId r
  let f2 := vRequiredStr "domain_pack_id" r
  let f3 := vTargetSection r
  let f4 := vOperation r
  let f5 := vRequiredStr "intent_summary" r
  let f6 := vConfidence r
  let f7 := vEntities r
  let f8 := vPayload r
  let f9 := vConstraints r
  let f10 := vStrListField "assumptions" r
  let f11 := vStrListField "ambiguities" r
  let f12 := vStrListField "suggestions" r
  let f13 := vValReqs r
  let f14 := vExecutionRisk r
  match f1, f2, f3, f4, f5, f6, f7, f8, f9, f10, f11, f12, f13, f14 with
  | .ok v1, .ok v2, .ok v3, .ok v4, .ok v5, .ok v6, .ok v7, .ok v8, .ok v9,
    .ok v10, .ok v11, .ok v12, .ok v13, .ok v14 =>
      .ok ⟨v1, v2, v3, v4, v5, v6, v7, v8, v9, v10, v11, v12, v13, v14⟩
  | _, _, _, _, _, _, _, _, _, _, _, _, _, _ =>
      .error (errsOf f1 ++ errsOf f2 ++ errsOf f3 ++ errsOf f4 ++ errsOf f5 ++
              errsOf f6 ++ errsOf f7 ++ errsOf f8 ++ errsOf f9 ++ errsOf f10 ++
              errsOf f11 ++ errsOf f12 ++ errsOf f13 ++ errsOf f14)

/- ---------------------------------------------------------------------
The `/intent` route (`backend/api/routes/intent.py` lines 69-154).
`generate_intent` runs inside `try: ... except ValueError: ...
except Exception: ...`; because `json.JSONDecodeError` (and hence the
extraction failure path of `parse_llm_output`) IS a `ValueError`, the
classification below is exactly the source's.  Validation failure is the
separate `except ValidationError` handler.  The HTTP error detail dict
is `ErrorDetail`; every failure branch writes `confidence: 0.0`.
--------------------------------------------------------------------- -/

structure ErrorDetail where
  error : String
  message : String
  confidence : ℚ
  details : Option (Errs × Record)

structure IntentResponse where
  intent : IntentionSchema
  message : String

def interpret_intent (settings : Settings) (action : ℕ → Except PyExc String)
    (freshId validatorFreshId domain_pack_id : String) :
    Except ErrorDetail IntentResponse :=
  match (generate_intent settings action freshId domain_pack_id).result with
  | .error e =>
    if e.isValueError then
      .error ⟨"LLM_CONFIGURATION_ERROR",
              "LLM service not properly configured: " ++ e.pyStr, 0, none⟩
    else
      .error ⟨"LLM_API_ERROR", "Failed to generate intent: " ++ e.pyStr, 0, none⟩
  | .ok intent_data =>
    match IntentionSchema.validate validatorFreshId intent_data with
    | .ok s => .ok ⟨s, "Intent parsed successfully"⟩
    | .error errs =>
      .error ⟨"INVALID_INTENT_SCHEMA",
              "The intent could not be parsed safely. LLM output does not match required schema.",
              0, some (errs, intent_data)⟩

/- ---------------------------------------------------------------------
Spec-side definitions used to state claims about the normalizer's
per-entry behaviour on `entities_involved`.
--------------------------------------------------------------------- -/

/-- Entries the `for entity in entities` loop keeps: strings and dicts. -/
def keepEntity : Json → Bool
  | .str _ => true
  | .obj _ => true
  | _ => false

/-- What the loop does to one kept entry. -/
def entityRepair : Json → Json
  | .str s => .obj [("type", .str "ENTITY"), ("name", .str s)]
  | .obj flds =>
      .obj (if containsKey flds "name" && !containsKey flds "type"
            then flds ++ [("type", .str "ENTITY")] else flds)
  | j => j

/-- Schema-conformant shape of one `entities_involved` entry: a dict with
string-valued `type` and `name`. -/
def EntityWellTyped (e : Json) : Prop :=
  match e with
  | .obj flds => (∃ t, recordGet flds "type" = some (.str t))
                 ∧ (∃ n, recordGet flds "name" = some (.str n))
  | _ => False

/-- Schema-conformant shape of a top-level value at key `k`, for the keys
the normalizer repairs; any other key's value is unconstrained (the
normalizer never looks at it). -/
def WellTypedAt (k : String) (v : Json) : Prop :=
  if k = "entities_involved" then
    match v with
    | .arr es => ∀ e ∈ es, EntityWellTyped e
    | _ => False
  else if k = "payload" then
    match v with
    | .obj flds => (∃ ex, recordGet flds "explicit" = some (.obj ex))
                   ∧ (∃ im, recordGet flds "implicit" = some (.obj im))
    | _ => False
  else if k = "constraints" then
    match v with
    | .obj flds => (∃ b, recordGet flds "must_not_override_existing" = some (.bool b))
                   ∧ (∃ ac, recordGet flds "additional_constraints" = some (.obj ac))
    | _ => False
  else if k = "validation_requirements" then
    match v with
    | .obj flds => (∃ b1, recordGet flds "schema_validation" = some (.bool b1))
                   ∧ (∃ b2, recordGet flds "duplicate_check" = some (.bool b2))
                   ∧ (∃ av, recordGet flds "additional_validations" = some (.obj av))
    | _ => False
  else True

/-- A concrete canonical intent value, used to instantiate the
hypothesis-bearing theorems below at a specific input. -/
def sampleIntent : IntentionSchema :=
  ⟨"intent-0001", "Legal_v01", .entities, .ADD, "Add new entity CLIENT", 9/10,
   [⟨"ENTITY", "CLIENT"⟩], ⟨[("client_id", .null)], []⟩, ⟨true, []⟩,
   ["the request concerns the entities section"], [], ["add attributes later"],
   ⟨true, true, [("unique_name", true)]⟩, .LOW⟩

/- =====================================================================
Theorems.
===================================================================== -/

theorem recordGet_recordSet_same (r : Record) (k : String) (v : Json) :
    recordGet (recordSet r k v) k = some v := by
  induction r with
  | nil => simp [recordSet, recordGet]
  | cons p rest ih =>
      obtain ⟨k', v'⟩ := p
      by_cases h : k = k' <;> simp [recordSet, recordGet, h, ih]

theorem recordGet_recordSet_ne (r : Record) (k k' : String) (v : Json)
    (hne : k' ≠ k) : recordGet (recordSet r k v) k' = recordGet r k' := by
  induction r with
  | nil => simp [recordSet, recordGet, hne]
  | cons p rest ih =>
      obtain ⟨k0, v0⟩ := p
      by_cases h : k = k0
      · subst h
        simp [recordSet, recordGet, hne]
      · by_cases h' : k' = k0 <;> simp [recordSet, recordGet, h, h', ih]

theorem recordGet_setIfAbsent (r : Record) (k0 k : String) (v : Json) (hk : k ≠ k0) :
    recordGet (if containsKey r k0 then r else recordSet r k0 v) k = recordGet r k := by
  split
  · rfl
  · exact recordGet_recordSet_ne _ _ _ _ hk

theorem containsKey_recordSet_ne (r : Record) (k k' : String) (v : Json)
    (hne : k' ≠ k) : containsKey (recordSet r k v) k' = containsKey r k' := by
  unfold containsKey
  rw [recordGet_recordSet_ne _ _ _ _ hne]

/- ---------------------------------------------------------------------
Frame lemmas: each normalization step writes only its own keys.
--------------------------------------------------------------------- -/

theorem fixEntitiesStep_frame (r : Record) (k : String) (hk : k ≠ "entities_involved") :
    recordGet (fixEntitiesStep r) k = recordGet r k := by
  unfold fixEntitiesStep
  cases h : recordGet r "entities_involved" with
  | none => rfl
  | some v => cases v <;> first
      | rfl
      | exact recordGet_recordSet_ne _ _ _ _ hk

theorem fixPayloadStep_frame (r : Record) (k : String) (hk : k ≠ "payload") :
    recordGet (fixPayloadStep r) k = recordGet r k := by
  unfold fixPayloadStep
  cases h : recordGet r "payload" with
  | none => exact recordGet_recordSet_ne _ _ _ _ hk
  | some v =>
      cases v <;> first
        | rfl
        | (dsimp only; split <;> exact recordGet_recordSet_ne _ _ _ _ hk)

theorem fixConstraintsStep_frame (r : Record) (k : String) (hk : k ≠ "constraints") :
    recordGet (fixConstraintsStep r) k = recordGet r k := by
  unfold fixConstraintsStep
  cases h : recordGet r "constraints" with
  | none => exact recordGet_recordSet_ne _ _ _ _ hk
  | some v => cases v <;> first
      | rfl
      | exact recordGet_recordSet_ne _ _ _ _ hk

theorem fixValReqsStep_frame (r : Record) (k : String) (hk : k ≠ "validation_requirements") :
    recordGet (fixValReqsStep r) k = recordGet r k := by
  unfold fixValReqsStep
  cases h : recordGet r "validation_requirements" with
  | none => exact recordGet_recordSet_ne _ _ _ _ hk
  | some v => cases v <;> first
      | rfl
      | exact recordGet_recordSet_ne _ _ _ _ hk

theorem fixDefaultsStep_frame (r : Record) (k : String)
    (h1 : k ≠ "assumptions") (h2 : k ≠ "ambiguities") (h3 : k ≠ "suggestions") :
    recordGet (fixDefaultsStep r) k = recordGet r k := by
  unfold fixDefaultsStep
  rw [recordGet_setIfAbsent _ _ _ _ h3, recordGet_setIfAbsent _ _ _ _ h2,
      recordGet_setIfAbsent _ _ _ _ h1]

theorem normalize_frame (r : Record) (k : String)
    (h1 : k ≠ "entities_involved") (h2 : k ≠ "payload") (h3 : k ≠ "constraints")
    (h4 : k ≠ "validation_requirements") (h5 : k ≠ "assumptions")
    (h6 : k ≠ "ambiguities") (h7 : k ≠ "suggestions") :
    recordGet (normalize_intent_data r) k = recordGet r k := by
  unfold normalize_intent_data
  rw [fixDefaultsStep_frame _ _ h5 h6 h7, fixValReqsStep_frame _ _ h4,
      fixConstraintsStep_frame _ _ h3, fixPayloadStep_frame _ _ h2,
      fixEntitiesStep_frame _ _ h1]

/- ---------------------------------------------------------------------
Per-key result lemmas for each normalization step.
--------------------------------------------------------------------- -/

theorem fixEntitiesStep_get (r : Record) (es : List Json)
    (h : recordGet r "entities_involved" = some (.arr es)) :
    recordGet (fixEntitiesStep r) "entities_involved" = some (.arr (fixEntities es)) := by
  unfold fixEntitiesStep
  rw [h]
  exact recordGet_recordSet_same _ _ _

theorem fixPayloadStep_get_absent (r : Record)
    (h : recordGet r "payload" = none) :
    recordGet (fixPayloadStep r) "payload"
      = some (.obj [("explicit", .obj []), ("implicit", .obj [])]) := by
  unfold fixPayloadStep
  rw [h]
  exact recordGet_recordSet_same _ _ _

theorem fixPayloadStep_get_bothMissing (r : Record) (p : Record)
    (h : recordGet r "payload" = some (.obj p))
    (hx : containsKey p "explicit" = false) (hi : containsKey p "implicit" = false) :
    recordGet (fixPayloadStep r) "payload"
      = some (.obj [("explicit", .obj p), ("implicit", .obj [])]) := by
  unfold fixPayloadStep
  rw [h]
  simp only [hx, hi, Bool.not_false, Bool.and_self, if_true]
  exact recordGet_recordSet_same _ _ _

theorem fixPayloadStep_get_missingImplicit (r : Record) (p : Record)
    (h : recordGet r "payload" = some (.obj p))
    (hx : containsKey p "explicit" = true) (hi : containsKey p "implicit" = false) :
    recordGet (fixPayloadStep r) "payload"
      = some (.obj (recordSet p "implicit" (.obj []))) := by
  unfold fixPayloadStep
  rw [h]
  simp only [hx, hi, Bool.not_true, Bool.false_and, Bool.if_false_left,
             Bool.and_true, if_true, if_false]
  exact recordGet_recordSet_same _ _ _

theorem fixPayloadStep_get_missingExplicit (r : Record) (p : Record)
    (h : recordGet r "payload" = some (.obj p))
    (hx : containsKey p "explicit" = false) (hi : containsKey p "implicit" = true) :
    recordGet (fixPayloadStep r) "payload"
      = some (.obj (recordSet p "explicit" (.obj []))) := by
  unfold fixPayloadStep
  rw [h]
  have hp1 : containsKey (recordSet p "explicit" (.obj [])) "implicit" = true := by
    rw [containsKey_recordSet_ne _ _ _ _ (by decide)]
    exact hi
  simp only [hx, hi, hp1, Bool.not_true, Bool.not_false, Bool.true_and, Bool.and_false,
             Bool.false_eq_true, if_false, if_true]
  exact recordGet_recordSet_same _ _ _

theorem fixPayloadStep_get_bothPresent (r : Record) (p : Record)
    (h : recordGet r "payload" = some (.obj p))
    (hx : containsKey p "explicit" = true) (hi : containsKey p "implicit" = true) :
    recordGet (fixPayloadStep r) "payload" = some (.obj p) := by
  unfold fixPayloadStep
  rw [h]
  simp only [hx, hi, Bool.not_true, Bool.and_self, Bool.false_and, if_false, if_true]
  exact recordGet_recordSet_same _ _ _

theorem fixConstraintsStep_get_bothPresent (r : Record) (c : Record)
    (h : recordGet r "constraints" = some (.obj c))
    (h1 : containsKey c "must_not_override_existing" = true)
    (h2 : containsKey c "additional_constraints" = true) :
    recordGet (fixConstraintsStep r) "constraints" = some (.obj c) := by
  unfold fixConstraintsStep
  rw [h]
  simp only [h1, h2, if_true]
  exact recordGet_recordSet_same _ _ _

theorem fixValReqsStep_get_allPresent (r : Record) (vr : Record)
    (h : recordGet r "validation_requirements" = some (.obj vr))
    (h1 : containsKey vr "schema_validation" = true)
    (h2 : containsKey vr "duplicate_check" = true)
    (h3 : containsKey vr "additional_validations" = true) :
    recordGet (fixValReqsStep r) "validation_requirements" = some (.obj vr) := by
  unfold fixValReqsStep
  rw [h]
  simp only [h1, h2, h3, if_true]
  exact recordGet_recordSet_same _ _ _

theorem recordGet_setIfAbsent_of_present (r : Record) (k0 k : String) (v : Json)
    (h : containsKey r k = true) :
    recordGet (if containsKey r k0 then r else recordSet r k0 v) k = recordGet r k := by
  by_cases hk : k = k0
  · subst hk
    rw [if_pos h]
  · exact recordGet_setIfAbsent r k0 k v hk

theorem containsKey_setIfAbsent_of_present (r : Record) (k0 k : String) (v : Json)
    (h : containsKey r k = true) :
    containsKey (if containsKey r k0 then r else recordSet r k0 v) k = true := by
  split
  · exact h
  · by_cases hk : k = k0
    · subst hk
      unfold containsKey
      rw [recordGet_recordSet_same]
      rfl
    · unfold containsKey
      rw [recordGet_recordSet_ne _ _ _ _ hk]
      exact h

theorem fixDefaultsStep_get_present (r : Record) (k : String) (h : containsKey r k = true) :
    recordGet (fixDefaultsStep r) k = recordGet r k := by
  have h1 := containsKey_setIfAbsent_of_present r "assumptions" k (.arr []) h
  unfold fixDefaultsStep
  rw [recordGet_setIfAbsent_of_present _ "suggestions" k _
        (containsKey_setIfAbsent_of_present _ "ambiguities" k _ h1),
      recordGet_setIfAbsent_of_present _ "ambiguities" k _ h1,
      recordGet_setIfAbsent_of_present _ "assumptions" k _ h]

/- ---------------------------------------------------------------------
Whole-normalizer per-key lemmas.
--------------------------------------------------------------------- -/

theorem normalize_entities_get (r : Record) (es : List Json)
    (h : recordGet r "entities_involved" = some (.arr es)) :
    recordGet (normalize_intent_data r) "entities_involved" = some (.arr (fixEntities es)) := by
  unfold normalize_intent_data
  rw [fixDefaultsStep_frame _ _ (by decide) (by decide) (by decide),
      fixValReqsStep_frame _ _ (by decide),
      fixConstraintsStep_frame _ _ (by decide),
      fixPayloadStep_frame _ _ (by decide)]
  exact fixEntitiesStep_get r es h

theorem normalize_payload_absent (r : Record)
    (h : recordGet r "payload" = none) :
    recordGet (normalize_intent_data r) "payload"
      = some (.obj [("explicit", .obj []), ("implicit", .obj [])]) := by
  unfold normalize_intent_data
  rw [fixDefaultsStep_frame _ _ (by decide) (by decide) (by decide),
      fixValReqsStep_frame _ _ (by decide),
      fixConstraintsStep_frame _ _ (by decide)]
  refine fixPayloadStep_get_absent _ ?_
  rw [fixEntitiesStep_frame _ _ (by decide)]
  exact h

theorem normalize_payload_bothMissing (r : Record) (p : Record)
    (h : recordGet r "payload" = some (.obj p))
    (hx : containsKey p "explicit" = false) (hi : containsKey p "implicit" = false) :
    recordGet (normalize_intent_data r) "payload"
      = some (.obj [("explicit", .obj p), ("implicit", .obj [])]) := by
  unfold normalize_intent_data
  rw [fixDefaultsStep_frame _ _ (by decide) (by decide) (by decide),
      fixValReqsStep_frame _ _ (by decide),
      fixConstraintsStep_frame _ _ (by decide)]
  refine fixPayloadStep_get_bothMissing _ p ?_ hx hi
  rw [fixEntitiesStep_frame _ _ (by decide)]
  exact h

theorem normalize_payload_missingImplicit (r : Record) (p : Record)
    (h : recordGet r "payload" = some (.obj p))
    (hx : containsKey p "explicit" = true) (hi : containsKey p "implicit" = false) :
    recordGet (normalize_intent_data r) "payload"
      = some (.obj (recordSet p "implicit" (.obj []))) := by
  unfold normalize_intent_data
  rw [fixDefaultsStep_frame _ _ (by decide) (by decide) (by decide),
      fixValReqsStep_frame _ _ (by decide),
      fixConstraintsStep_frame _ _ (by decide)]
  refine fixPayloadStep_get_missingImplicit _ p ?_ hx hi
  rw [fixEntitiesStep_frame _ _ (by decide)]
  exact h

theorem normalize_payload_missingExplicit (r : Record) (p : Record)
    (h : recordGet r "payload" = some (.obj p))
    (hx : containsKey p "explicit" = false) (hi : containsKey p "implicit" = true) :
    recordGet (normalize_intent_data r) "payload"
      = some (.obj (recordSet p "explicit" (.obj []))) := by
  unfold normalize_intent_data
  rw [fixDefaultsStep_frame _ _ (by decide) (by decide) (by decide),
      fixValReqsStep_frame _ _ (by decide),
      fixConstraintsStep_frame _ _ (by decide)]
  refine fixPayloadStep_get_missingExplicit _ p ?_ hx hi
  rw [fixEntitiesStep_frame _ _ (by decide)]
  exact h

theorem normalize_payload_bothPresent (r : Record) (p : Record)
    (h : recordGet r "payload" = some (.obj p))
    (hx : containsKey p "explicit" = true) (hi : containsKey p "implicit" = true) :
    recordGet (normalize_intent_data r) "payload" = some (.obj p) := by
  unfold normalize_intent_data
  rw [fixDefaultsStep_frame _ _ (by decide) (by decide) (by decide),
      fixValReqsStep_frame _ _ (by decide),
      fixConstraintsStep_frame _ _ (by decide)]
  refine fixPayloadStep_get_bothPresent _ p ?_ hx hi
  rw [fixEntitiesStep_frame _ _ (by decide)]
  exact h

theorem normalize_constraints_bothPresent (r : Record) (c : Record)
    (h : recordGet r "constraints" = some (.obj c))
    (h1 : containsKey c "must_not_override_existing" = true)
    (h2 : containsKey c "additional_constraints" = true) :
    recordGet (normalize_intent_data r) "constraints" = some (.obj c) := by
  unfold normalize_intent_data
  rw [fixDefaultsStep_frame _ _ (by decide) (by decide) (by decide),
      fixValReqsStep_frame _ _ (by decide)]
  refine fixConstraintsStep_get_bothPresent _ c ?_ h1 h2
  rw [fixPayloadStep_frame _ _ (by decide), fixEntitiesStep_frame _ _ (by decide)]
  exact h

theorem normalize_valReqs_allPresent (r : Record) (vr : Record)
    (h : recordGet r "validation_requirements" = some (.obj vr))
    (h1 : containsKey vr "schema_validation" = true)
    (h2 : containsKey vr "duplicate_check" = true)
    (h3 : containsKey vr "additional_validations" = true) :
    recordGet (normalize_intent_data r) "validation_requirements" = some (.obj vr) := by
  unfold normalize_intent_data
  rw [fixDefaultsStep_frame _ _ (by decide) (by decide) (by decide)]
  refine fixValReqsStep_get_allPresent _ vr ?_ h1 h2 h3
  rw [fixConstraintsStep_frame _ _ (by decide), fixPayloadStep_frame _ _ (by decide),
      fixEntitiesStep_frame _ _ (by decide)]
  exact h

theorem normalize_get_present_defaultKey (r : Record) (k : String) (v : Json)
    (hk1 : k ≠ "entities_involved") (hk2 : k ≠ "payload") (hk3 : k ≠ "constraints")
    (hk4 : k ≠ "validation_requirements")
    (h : recordGet r k = some v) :
    recordGet (normalize_intent_data r) k = some v := by
  unfold normalize_intent_data
  have hmid : recordGet (fixValReqsStep (fixConstraintsStep (fixPayloadStep (fixEntitiesStep r)))) k
      = some v := by
    rw [fixValReqsStep_frame _ _ hk4, fixConstraintsStep_frame _ _ hk3,
        fixPayloadStep_frame _ _ hk2, fixEntitiesStep_frame _ _ hk1]
    exact h
  rw [fixDefaultsStep_get_present _ k (by unfold containsKey; rw [hmid]; rfl)]
  exact hmid

/-- C5: for every extracted record, normalization of `payload` behaves
case by case: absent payload becomes `{explicit: {}, implicit: {}}`; a
payload dict missing both sub-keys is wrapped whole as `explicit` with
empty `implicit`; when exactly one sub-key is missing it is filled with
an empty dict and every other entry of the payload (in particular the
present sub-key) is unchanged. -/
theorem C5_payload_normalization :
    (∀ r : Record, recordGet r "payload" = none →
        recordGet (normalize_intent_data r) "payload"
          = some (.obj [("explicit", .obj []), ("implicit", .obj [])]))
    ∧ (∀ (r p : Record), recordGet r "payload" = some (.obj p) →
        containsKey p "explicit" = false → containsKey p "implicit" = false →
        recordGet (normalize_intent_data r) "payload"
          = some (.obj [("explicit", .obj p), ("implicit", .obj [])]))
    ∧ (∀ (r p : Record), recordGet r "payload" = some (.obj p) →
        containsKey p "explicit" = true → containsKey p "implicit" = false →
        ∃ p2, recordGet (normalize_intent_data r) "payload" = some (.obj p2)
          ∧ recordGet p2 "implicit" = some (.obj [])
          ∧ ∀ k, k ≠ "implicit" → recordGet p2 k = recordGet p k)
    ∧ (∀ (r p : Record), recordGet r "payload" = some (.obj p) →
        containsKey p "explicit" = false → containsKey p "implicit" = true →
        ∃ p2, recordGet (normalize_intent_data r) "payload" = some (.obj p2)
          ∧ recordGet p2 "explicit" = some (.obj [])
          ∧ ∀ k, k ≠ "explicit" → recordGet p2 k = recordGet p k) := by
  refine ⟨fun r h => normalize_payload_absent r h,
          fun r p h hx hi => normalize_payload_bothMissing r p h hx hi,
          fun r p h hx hi => ?_, fun r p h hx hi => ?_⟩
  · refine ⟨recordSet p "implicit" (.obj []),
            normalize_payload_missingImplicit r p h hx hi,
            recordGet_recordSet_same _ _ _,
            fun k hk => recordGet_recordSet_ne _ _ _ _ hk⟩
  · refine ⟨recordSet p "explicit" (.obj []),
            normalize_payload_missingExplicit r p h hx hi,
            recordGet_recordSet_same _ _ _,
            fun k hk => recordGet_recordSet_ne _ _ _ _ hk⟩

theorem C5_payload_normalization_witness :
    recordGet (normalize_intent_data [("operation", .str "ADD")]) "payload"
      = some (.obj [("explicit", .obj []), ("implicit", .obj [])])
    ∧ recordGet (normalize_intent_data [("payload", .obj [("client_id", .null)])]) "payload"
      = some (.obj [("explicit", .obj [("client_id", .null)]), ("implicit", .obj [])])
    ∧ (∃ p2, recordGet (normalize_intent_data
          [("payload", .obj [("explicit", .obj [("a", .num 1)])])]) "payload" = some (.obj p2)
        ∧ recordGet p2 "implicit" = some (.obj [])
        ∧ ∀ k, k ≠ "implicit" →
            recordGet p2 k = recordGet [("explicit", Json.obj [("a", Json.num 1)])] k)
    ∧ (∃ p2, recordGet (normalize_intent_data
          [("payload", .obj [("implicit", .obj [("b", .num 2)])])]) "payload" = some (.obj p2)
        ∧ recordGet p2 "explicit" = some (.obj [])
        ∧ ∀ k, k ≠ "explicit" →
            recordGet p2 k = recordGet [("implicit", Json.obj [("b", Json.num 2)])] k) :=
  ⟨C5_payload_normalization.1 _ (by rfl),
   C5_payload_normalization.2.1 _ _ (by rfl) (by rfl) (by rfl),
   C5_payload_normalization.2.2.1 _ _ (by rfl) (by rfl) (by rfl),
   C5_payload_normalization.2.2.2 _ _ (by rfl) (by rfl) (by rfl)⟩

/-- C9: after normalization the orchestrator (`generate_intent`), not the
normalizer, fills `intent_id` with the freshly generated token when
absent and `domain_pack_id` (the spec's `target_identifier`) from the
request's document identifier when absent; present values are left
untouched, and the normalizer itself never touches either key. -/
theorem C9_orchestrator_fills_ids :
    (∀ (r : Record) (f dp : String), recordGet r "intent_id" = none →
        recordGet (ensureIds f dp r) "intent_id" = some (.str f))
    ∧ (∀ (r : Record) (f dp : String) (v : Json), recordGet r "intent_id" = some v →
        recordGet (ensureIds f dp r) "intent_id" = some v)
    ∧ (∀ (r : Record) (f dp : String), recordGet r "domain_pack_id" = none →
        recordGet (ensureIds f dp r) "domain_pack_id" = some (.str dp))
    ∧ (∀ (r : Record) (f dp : String) (v : Json), recordGet r "domain_pack_id" = some v →
        recordGet (ensureIds f dp r) "domain_pack_id" = some v)
    ∧ (∀ r : Record,
        recordGet (normalize_intent_data r) "intent_id" = recordGet r "intent_id"
        ∧ recordGet (normalize_intent_data r) "domain_pack_id" = recordGet r "domain_pack_id") := by
  have habs : ∀ (r : Record) (k0 : String) (v : Json), recordGet r k0 = none →
      recordGet (if containsKey r k0 then r else recordSet r k0 v) k0 = some v := by
    intro r k0 v h
    have hc : containsKey r k0 = false := by
      unfold containsKey
      rw [h]
      rfl
    rw [hc]
    simp only [Bool.false_eq_true, if_false]
    exact recordGet_recordSet_same _ _ _
  have hpres : ∀ (r : Record) (k0 : String) (v0 v : Json), recordGet r k0 = some v0 →
      recordGet (if containsKey r k0 then r else recordSet r k0 v) k0 = some v0 := by
    intro r k0 v0 v h
    have hc : containsKey r k0 = true := by
      unfold containsKey
      rw [h]
      rfl
    rw [hc]
    simp only [if_true]
    exact h
  have hframe : ∀ (r : Record) (f dp : String),
      recordGet (ensureIds f dp r) "intent_id"
        = recordGet (if containsKey r "intent_id" then r
                     else recordSet r "intent_id" (.str f)) "intent_id" := by
    intro r f dp
    unfold ensureIds
    exact recordGet_setIfAbsent _ "domain_pack_id" "intent_id" _ (by decide)
  refine ⟨?_, ?_, ?_, ?_, ?_⟩
  · intro r f dp h
    rw [hframe]
    exact habs r "intent_id" (.str f) h
  · intro r f dp v h
    rw [hframe]
    exact hpres r "intent_id" v (.str f) h
  · intro r f dp h
    have hd1 : recordGet (if containsKey r "intent_id" then r
        else recordSet r "intent_id" (.str f)) "domain_pack_id" = none := by
      rw [recordGet_setIfAbsent _ "intent_id" "domain_pack_id" _ (by decide)]
      exact h
    exact habs _ "domain_pack_id" (.str dp) hd1
  · intro r f dp v h
    have hd1 : recordGet (if containsKey r "intent_id" then r
        else recordSet r "intent_id" (.str f)) "domain_pack_id" = some v := by
      rw [recordGet_setIfAbsent _ "intent_id" "domain_pack_id" _ (by decide)]
      exact h
    exact hpres _ "domain_pack_id" v (.str dp) hd1
  · intro r
    exact ⟨normalize_frame r _ (by decide) (by decide) (by decide) (by decide)
             (by decide) (by decide) (by decide),
           normalize_frame r _ (by decide) (by decide) (by decide) (by decide)
             (by decide) (by decide) (by decide)⟩

theorem C9_orchestrator_fills_ids_witness :
    recordGet (ensureIds "uuid-1234" "Legal_v01" []) "intent_id" = some (.str "uuid-1234")
    ∧ recordGet (ensureIds "uuid-1234" "Legal_v01" [("intent_id", .str "keep-me")]) "intent_id"
        = some (.str "keep-me")
    ∧ recordGet (ensureIds "uuid-1234" "Legal_v01" []) "domain_pack_id"
        = some (.str "Legal_v01")
    ∧ recordGet (ensureIds "uuid-1234" "Legal_v01" [("domain_pack_id", .str "Other_v02")])
        "domain_pack_id" = some (.str "Other_v02") :=
  ⟨C9_orchestrator_fills_ids.1 [] "uuid-1234" "Legal_v01" (by rfl),
   C9_orchestrator_fills_ids.2.1 _ "uuid-1234" "Legal_v01" _ (by rfl),
   C9_orchestrator_fills_ids.2.2.1 [] "uuid-1234" "Legal_v01" (by rfl),
   C9_orchestrator_fills_ids.2.2.2.1 _ "uuid-1234" "Legal_v01" _ (by rfl)⟩

/- ---------------------------------------------------------------------
The entity loop: characterizations.
--------------------------------------------------------------------- -/

theorem fixEntities_eq_filterMap (es : List Json) :
    fixEntities es = (es.filter keepEntity).map entityRepair := by
  induction es with
  | nil => rfl
  | cons e rest ih => cases e <;> simp [fixEntities, keepEntity, entityRepair, ih]

theorem fixEntities_wellTyped (es : List Json) (h : ∀ e ∈ es, EntityWellTyped e) :
    fixEntities es = es := by
  induction es with
  | nil => rfl
  | cons e rest ih =>
    have he := h e (List.mem_cons_self e rest)
    have hrest := ih fun x hx => h x (List.mem_cons_of_mem _ hx)
    cases e with
    | obj flds =>
      obtain ⟨⟨t, ht⟩, hn⟩ := he
      have hct : containsKey flds "type" = true := by
        unfold containsKey
        rw [ht]
        rfl
      simp [fixEntities, hct, hrest]
    | null => simp [EntityWellTyped] at he
    | bool b => simp [EntityWellTyped] at he
    | num q => simp [EntityWellTyped] at he
    | str s => simp [EntityWellTyped] at he
    | arr xs => simp [EntityWellTyped] at he

theorem recordGet_append_ne (flds : Record) (k : String) (v : Json) (k0 : String)
    (hk : k0 ≠ k) : recordGet (flds ++ [(k, v)]) k0 = recordGet flds k0 := by
  induction flds with
  | nil => simp [recordGet, hk]
  | cons p rest ih =>
      obtain ⟨k1, v1⟩ := p
      by_cases h : k0 = k1 <;> simp [recordGet, h, ih]

theorem recordGet_append_self (flds : Record) (k : String) (v : Json)
    (h : containsKey flds k = false) :
    recordGet (flds ++ [(k, v)]) k = some v := by
  induction flds with
  | nil => simp [recordGet]
  | cons p rest ih =>
      obtain ⟨k1, v1⟩ := p
      unfold containsKey recordGet at h
      by_cases hk : k = k1
      · rw [if_pos hk] at h
        simp at h
      · rw [if_neg hk] at h
        simp only [List.cons_append, recordGet, if_neg hk]
        exact ih h

/-- C6: a bare-string `entities_involved` entry becomes the record
`(type=ENTITY, name=s)` (the spec's `kind` is the code's `type`), and a
dict entry with `name` but no `type` gets `type=ENTITY` appended while
every other field keeps its value; both shapes reach
`normalize_intent_data`'s output list unchanged in position. -/
theorem C6_entity_entry_normalization :
    (∀ (r : Record) (es : List Json), recordGet r "entities_involved" = some (.arr es) →
        recordGet (normalize_intent_data r) "entities_involved"
          = some (.arr (fixEntities es)))
    ∧ (∀ (s : String) (rest : List Json),
        fixEntities (.str s :: rest)
          = .obj [("type", .str "ENTITY"), ("name", .str s)] :: fixEntities rest)
    ∧ (∀ (flds : Record) (rest : List Json),
        containsKey flds "name" = true → containsKey flds "type" = false →
        fixEntities (.obj flds :: rest)
          = .obj (flds ++ [("type", .str "ENTITY")]) :: fixEntities rest
        ∧ recordGet (flds ++ [("type", .str "ENTITY")]) "type" = some (.str "ENTITY")
        ∧ ∀ k, k ≠ "type" →
            recordGet (flds ++ [("type", .str "ENTITY")]) k = recordGet flds k) := by
  refine ⟨fun r es h => normalize_entities_get r es h, fun s rest => rfl, ?_⟩
  intro flds rest hname htype
  refine ⟨by simp [fixEntities, hname, htype], recordGet_append_self flds _ _ htype,
          fun k hk => recordGet_append_ne flds _ _ k hk⟩

theorem C6_entity_entry_normalization_witness :
    recordGet (normalize_intent_data [("entities_involved", .arr [.str "CLIENT"])])
        "entities_involved"
      = some (.arr [.obj [("type", .str "ENTITY"), ("name", .str "CLIENT")]])
    ∧ (fixEntities [.obj [("name", .str "X"), ("role", .str "buyer")]]
        = [.obj [("name", .str "X"), ("role", .str "buyer"), ("type", .str "ENTITY")]]
       ∧ recordGet [("name", Json.str "X"), ("role", Json.str "buyer"),
                    ("type", Json.str "ENTITY")] "type" = some (.str "ENTITY")
       ∧ ∀ k, k ≠ "type" →
           recordGet [("name", Json.str "X"), ("role", Json.str "buyer"),
                      ("type", Json.str "ENTITY")] k
             = recordGet [("name", Json.str "X"), ("role", Json.str "buyer")] k) :=
  ⟨C6_entity_entry_normalization.1 _ [.str "CLIENT"] (by rfl),
   C6_entity_entry_normalization.2.2 [("name", .str "X"), ("role", .str "buyer")] []
     (by rfl) (by rfl)⟩

/-- C10: normalization keeps exactly the string and dict entries of
`entities_involved`, in their original order (each repaired by
`entityRepair`), and silently drops every other entry, so the output
list can be strictly shorter than the input. -/
theorem C10_non_record_entries_dropped :
    (∀ (r : Record) (es : List Json), recordGet r "entities_involved" = some (.arr es) →
        recordGet (normalize_intent_data r) "entities_involved"
          = some (.arr ((es.filter keepEntity).map entityRepair)))
    ∧ (∀ es : List Json, (fixEntities es).length ≤ es.length)
    ∧ fixEntities [.num 7, .null, .str "CLIENT"]
        = [.obj [("type", .str "ENTITY"), ("name", .str "CLIENT")]] := by
  refine ⟨?_, ?_, rfl⟩
  · intro r es h
    rw [normalize_entities_get r es h, fixEntities_eq_filterMap]
  · intro es
    rw [fixEntities_eq_filterMap, List.length_map]
    exact List.length_filter_le _ _

theorem C10_non_record_entries_dropped_witness :
    recordGet (normalize_intent_data
        [("entities_involved", .arr [.num 7, .null, .str "CLIENT", .bool true])])
        "entities_involved"
      = some (.arr [.obj [("type", .str "ENTITY"), ("name", .str "CLIENT")]]) := by
  rw [C10_non_record_entries_dropped.1 _ [.num 7, .null, .str "CLIENT", .bool true] (by rfl)]
  rfl

/-- C4: normalization never changes a key whose value is present and
schema-conformant (`WellTypedAt`), and it never touches the five keys
`target_section`, `operation`, `intent_summary` (the spec's `summary`),
`confidence`, `execution_risk` at all — each is identical (present with
the same value, or absent) before and after `normalize_intent_data`. -/
theorem C4_normalization_preserves_wellTyped :
    (∀ (r : Record) (k : String) (v : Json), recordGet r k = some v → WellTypedAt k v →
        recordGet (normalize_intent_data r) k = some v)
    ∧ (∀ (r : Record) (k : String),
        k = "target_section" ∨ k = "operation" ∨ k = "intent_summary"
          ∨ k = "confidence" ∨ k = "execution_risk" →
        recordGet (normalize_intent_data r) k = recordGet r k) := by
  constructor
  · intro r k v hget hwt
    by_cases h1 : k = "entities_involved"
    · subst h1
      cases v with
      | arr es =>
          have hes : ∀ e ∈ es, EntityWellTyped e := by simpa [WellTypedAt] using hwt
          rw [normalize_entities_get r es hget, fixEntities_wellTyped es hes]
      | null => simp [WellTypedAt] at hwt
      | bool b => simp [WellTypedAt] at hwt
      | num q => simp [WellTypedAt] at hwt
      | str s => simp [WellTypedAt] at hwt
      | obj flds => simp [WellTypedAt] at hwt
    · by_cases h2 : k = "payload"
      · subst h2
        cases v with
        | obj p =>
            have hp : (∃ ex, recordGet p "explicit" = some (.obj ex))
                ∧ ∃ im, recordGet p "implicit" = some (.obj im) := by
              simpa [WellTypedAt] using hwt
            obtain ⟨⟨ex, hex⟩, ⟨im, him⟩⟩ := hp
            have hcx : containsKey p "explicit" = true := by
              unfold containsKey
              rw [hex]
              rfl
            have hci : containsKey p "implicit" = true := by
              unfold containsKey
              rw [him]
              rfl
            exact normalize_payload_bothPresent r p hget hcx hci
        | null => simp [WellTypedAt] at hwt
        | bool b => simp [WellTypedAt] at hwt
        | num q => simp [WellTypedAt] at hwt
        | str s => simp [WellTypedAt] at hwt
        | arr es => simp [WellTypedAt] at hwt
      · by_cases h3 : k = "constraints"
        · subst h3
          cases v with
          | obj c =>
              have hp : (∃ b, recordGet c "must_not_override_existing" = some (.bool b))
                  ∧ ∃ ac, recordGet c "additional_constraints" = some (.obj ac) := by
                simpa [WellTypedAt] using hwt
              obtain ⟨⟨b, hb⟩, ⟨ac, hac⟩⟩ := hp
              have hc1 : containsKey c "must_not_override_existing" = true := by
                unfold containsKey
                rw [hb]
                rfl
              have hc2 : containsKey c "additional_constraints" = true := by
                unfold containsKey
                rw [hac]
                rfl
              exact normalize_constraints_bothPresent r c hget hc1 hc2
          | null => simp [WellTypedAt] at hwt
          | bool b => simp [WellTypedAt] at hwt
          | num q => simp [WellTypedAt] at hwt
          | str s => simp [WellTypedAt] at hwt
          | arr es => simp [WellTypedAt] at hwt
        · by_cases h4 : k = "validation_requirements"
          · subst h4
            cases v with
            | obj vr =>
                have hp : (∃ b1, recordGet vr "schema_validation" = some (.bool b1))
                    ∧ (∃ b2, recordGet vr "duplicate_check" = some (.bool b2))
                    ∧ ∃ av, recordGet vr "additional_validations" = some (.obj av) := by
                  simpa [WellTypedAt] using hwt
                obtain ⟨⟨b1, hb1⟩, ⟨b2, hb2⟩, ⟨av, hav⟩⟩ := hp
                have hc1 : containsKey vr "schema_validation" = true := by
                  unfold containsKey
                  rw [hb1]
                  rfl
                have hc2 : containsKey vr "duplicate_check" = true := by
                  unfold containsKey
                  rw [hb2]
                  rfl
                have hc3 : containsKey vr "additional_validations" = true := by
                  unfold containsKey
                  rw [hav]
                  rfl
                exact normalize_valReqs_allPresent r vr hget hc1 hc2 hc3
            | null => simp [WellTypedAt] at hwt
            | bool b => simp [WellTypedAt] at hwt
            | num q => simp [WellTypedAt] at hwt
            | str s => simp [WellTypedAt] at hwt
            | arr es => simp [WellTypedAt] at hwt
          · exact normalize_get_present_defaultKey r k v h1 h2 h3 h4 hget
  · intro r k hk
    rcases hk with h | h | h | h | h <;> subst h <;>
      exact normalize_frame r _ (by decide) (by decide) (by decide) (by decide)
        (by decide) (by decide) (by decide)

theorem C4_normalization_preserves_wellTyped_witness :
    recordGet (normalize_intent_data
        [("confidence", .num (9/10)), ("payload", .obj [("explicit", .obj []), ("implicit", .obj [])])])
        "payload"
      = some (.obj [("explicit", .obj []), ("implicit", .obj [])])
    ∧ recordGet (normalize_intent_data
        [("confidence", .num (9/10)), ("payload", .obj [("explicit", .obj []), ("implicit", .obj [])])])
        "confidence"
      = recordGet
        [("confidence", Json.num (9/10)), ("payload", Json.obj [("explicit", Json.obj []), ("implicit", Json.obj [])])]
        "confidence" :=
  ⟨C4_normalization_preserves_wellTyped.1 _ "payload" _ (by rfl) (by simp [WellTypedAt, recordGet]),
   C4_normalization_preserves_wellTyped.2 _ "confidence" (by simp)⟩

/-- C2, counterexample: on the text `"```json x``` {"a":1}"` the
brace-substring attempt (the claim's attempt 4) parses successfully to
`{"a": 1}`, yet `parse_llm_output` reports a parse failure — the
cascade does not fall through to later attempts once a fenced block is
found, and the failure reported is a `JSONDecodeError`, not the distinct
"no structured record recoverable" `ValueError`.  This refutes the
claim's "the first attempt that succeeds gives the result, and if all
attempts fail a distinct ... failure is reported". -/
theorem C2_extraction_counterexample :
    json_loads (pySlice "```json x``` \x7b\"a\":1\x7d"
        (pyFind "```json x``` \x7b\"a\":1\x7d" "\x7b")
        (pyRFind "```json x``` \x7b\"a\":1\x7d" "\x7d" + 1))
      = .ok (.obj [("a", .num 1)])
    ∧ parse_llm_output "```json x``` \x7b\"a\":1\x7d"
      = .error (.jsonDecodeError "Expecting value") :=
  ⟨rfl, rfl⟩

/-- C2, amended: extraction selects a single strategy rather than
cascading through all four attempts.  The complete case analysis, one
conjunct per branch of the source: (1) the whole text, if it parses
directly; (2) otherwise, if a ```json fence exists, the stripped slice
from after that tag to the next fence, any parse failure propagating;
(3) otherwise, if a ``` fence exists, the analogous slice, any parse
failure propagating; (4) otherwise, if the text has a `{` and its last
`}` lies after its first `{`, that substring, any parse failure
propagating; (5) in precisely the remaining case — direct parse failed,
no fence, and no such brace span (no `{` at all, or the last `}` not
after the first `{`) — the distinct "no structured record recoverable"
`ValueError`.  The spec's concrete example still extracts `{"a": 1}`,
and a failing fence interior yields a parse error, never a fallthrough
(final conjunct, the counterexample input). -/
theorem C2_extraction_amended :
    (∀ (s : String) (v : Json), json_loads s = .ok v → parse_llm_output s = .ok v)
    ∧ (∀ (s m : String), json_loads s = .error m →
        pyContains s "```json" = true →
        parse_llm_output s
          = (json_loads (pyStrip (pySlice s (pyFind s "```json" + 7)
               (pyFindFrom s "```" (pyFind s "```json" + 7))))).mapError PyExc.jsonDecodeError)
    ∧ (∀ (s m : String), json_loads s = .error m →
        pyContains s "```json" = false → pyContains s "```" = true →
        parse_llm_output s
          = (json_loads (pyStrip (pySlice s (pyFind s "```" + 3)
               (pyFindFrom s "```" (pyFind s "```" + 3))))).mapError PyExc.jsonDecodeError)
    ∧ (∀ (s m : String), json_loads s = .error m →
        pyContains s "```json" = false → pyContains s "```" = false →
        pyFind s "\x7b" ≠ -1 → pyRFind s "\x7d" + 1 > pyFind s "\x7b" →
        parse_llm_output s
          = (json_loads (pySlice s (pyFind s "\x7b")
               (pyRFind s "\x7d" + 1))).mapError PyExc.jsonDecodeError)
    ∧ (∀ (s m : String), json_loads s = .error m →
        pyContains s "```json" = false → pyContains s "```" = false →
        (pyFind s "\x7b" = -1 ∨ ¬ pyRFind s "\x7d" + 1 > pyFind s "\x7b") →
        parse_llm_output s
          = .error (.valueError "Could not extract valid JSON from LLM output"))
    ∧ parse_llm_output "noise ```json \x7b\"a\":1\x7d ``` trailing"
        = .ok (.obj [("a", .num 1)])
    ∧ parse_llm_output "```json x``` \x7b\"a\":1\x7d"
        = .error (.jsonDecodeError "Expecting value") := by
  refine ⟨?_, ?_, ?_, ?_, ?_, rfl, rfl⟩
  · intro s v h
    unfold parse_llm_output
    rw [h]
  · intro s m h hjson
    unfold parse_llm_output
    rw [h, if_pos hjson]
  · intro s m h hjson hfence
    unfold parse_llm_output
    rw [h, if_neg (by simp [hjson]), if_pos hfence]
  · intro s m h hjson hfence hne hgt
    unfold parse_llm_output
    rw [h, if_neg (by simp [hjson]), if_neg (by simp [hfence]), if_pos ⟨hne, hgt⟩]
  · intro s m h hjson hfence hspan
    unfold parse_llm_output
    rw [h, if_neg (by simp [hjson]), if_neg (by simp [hfence]), if_neg ?_]
    rintro ⟨hne, hgt⟩
    rcases hspan with hb | hb
    · exact hne hb
    · exact hb hgt

/-- C2, witness: the amended theorem applied at four concrete inputs:
`"{"a":1}"` (direct parse wins); `"I cannot help with that."` (no fence,
no `{`: the distinct extraction failure); `"{"` (contains a `{` but no
brace span, since no `}` follows: still the distinct extraction
failure); and `"prefix {"c": 3} suffix"` (no fence, valid brace span:
the substring is parsed, here successfully). -/
theorem C2_extraction_amended_witness :
    parse_llm_output "\x7b\"a\":1\x7d" = .ok (.obj [("a", .num 1)])
    ∧ parse_llm_output "I cannot help with that."
        = .error (.valueError "Could not extract valid JSON from LLM output")
    ∧ parse_llm_output "\x7b"
        = .error (.valueError "Could not extract valid JSON from LLM output")
    ∧ parse_llm_output "prefix \x7b\"c\": 3\x7d suffix" = .ok (.obj [("c", .num 3)]) :=
  ⟨C2_extraction_amended.1 _ (.obj [("a", .num 1)]) (by rfl),
   C2_extraction_amended.2.2.2.2.1 "I cannot help with that." "Expecting value"
     (by rfl) (by rfl) (by rfl) (Or.inl (by decide)),
   C2_extraction_amended.2.2.2.2.1 "\x7b" "Expecting property name"
     (by rfl) (by rfl) (by rfl) (Or.inr (by decide)),
   (C2_extraction_amended.2.2.2.1 "prefix \x7b\"c\": 3\x7d suffix" "Expecting value"
     (by rfl) (by rfl) (by rfl) (by decide) (by decide)).trans (by rfl)⟩

/-- C1: an extraction failure (raw backend text with no structured
record) is surfaced by the `/intent` route with the error code
`LLM_CONFIGURATION_ERROR` — the same code as a genuine missing-credential
configuration failure — because the extraction failure is raised as a
`ValueError` and the route's `except ValueError` clause (documented as
"API key not configured") catches it.  Both failure responses do carry
`confidence = 0.0`, but the two failure kinds are not distinct to the
caller, contradicting the claim (and the route's own documentation). -/
theorem C1_extraction_conflated_with_configuration :
    interpret_intent ⟨"openai", some "sk-test", none, none⟩
        (fun _ => .ok "I cannot help with that.") "u1" "u2" "Legal_v01"
      = .error ⟨"LLM_CONFIGURATION_ERROR",
          "LLM service not properly configured: Could not extract valid JSON from LLM output",
          0, none⟩
    ∧ interpret_intent ⟨"openai", none, none, none⟩
        (fun _ => .ok "\x7b\x7d") "u1" "u2" "Legal_v01"
      = .error ⟨"LLM_CONFIGURATION_ERROR",
          "LLM service not properly configured: OPENAI_API_KEY not configured",
          0, none⟩ :=
  ⟨rfl, rfl⟩

/-- C3, counterexample: when every attempt fails with the same backend
error, the retry policy does not surface that last failure unchanged —
tenacity's default `reraise=False` raises a `RetryError` wrapping it, a
different exception. -/
theorem C3_retry_counterexample :
    (retryRun (wait_exponential 1 2 10) 3
        (fun _ => (.error (.apiError "boom") : Except PyExc String))).result
      = .error (.retryError (.apiError "boom"))
    ∧ (Except.error (PyExc.retryError (.apiError "boom")) : Except PyExc String)
      ≠ .error (.apiError "boom") :=
  ⟨rfl, by simp⟩

/-- C3, amended: the retry policy retries only invocation-time failures
(a construction-time missing-credential failure aborts `generate_intent`
with zero backend attempts and is not wrapped), makes at most 3
attempts, sleeps non-decreasing backoff delays clamped into [2, 10]
between attempts, and when all attempts fail raises a retry-exhausted
error wrapping (not equal to) the last failure; a backend failing twice
then succeeding completes with exactly 3 attempts and delays [2, 2]. -/
theorem C3_retry_amended :
    (∀ action : ℕ → Except PyExc String,
        (retryRun (wait_exponential 1 2 10) 3 action).attempts ≤ 3
        ∧ (retryRun (wait_exponential 1 2 10) 3 action).delays.Chain' (· ≤ ·)
        ∧ ∀ d ∈ (retryRun (wait_exponential 1 2 10) 3 action).delays, 2 ≤ d ∧ d ≤ 10)
    ∧ (∀ (action : ℕ → Except PyExc String) (e : PyExc), (∀ n, action n = .error e) →
        (retryRun (wait_exponential 1 2 10) 3 action).result = .error (.retryError e)
        ∧ (retryRun (wait_exponential 1 2 10) 3 action).attempts = 3)
    ∧ (∀ (action : ℕ → Except PyExc String) (f dp : String),
        (generate_intent ⟨"openai", none, none, none⟩ action f dp).result
          = .error (.valueError "OPENAI_API_KEY not configured")
        ∧ (generate_intent ⟨"openai", none, none, none⟩ action f dp).attempts = 0)
    ∧ retryRun (wait_exponential 1 2 10) 3
        (fun n => if n ≤ 2 then .error (.apiError "transient") else .ok "raw")
      = ⟨.ok "raw", 3, [2, 2]⟩ := by
  have hw1 : wait_exponential 1 2 10 1 = 2 := by decide
  have hw2 : wait_exponential 1 2 10 2 = 2 := by decide
  refine ⟨?_, ?_, ?_, by rfl⟩
  · intro action
    cases h1 : action 1 with
    | ok a => simp [retryRun, retryGo, h1]
    | error e1 =>
      cases h2 : action 2 with
      | ok a =>
          refine ⟨?_, ?_, ?_⟩ <;>
            simp [retryRun, retryGo, h1, h2, hw1] <;> norm_num
      | error e2 =>
        cases h3 : action 3 with
        | ok a =>
            refine ⟨?_, ?_, ?_⟩ <;>
              simp [retryRun, retryGo, h1, h2, h3, hw1, hw2] <;> norm_num
        | error e3 =>
            refine ⟨?_, ?_, ?_⟩ <;>
              simp [retryRun, retryGo, h1, h2, h3, hw1, hw2] <;> norm_num
  · intro action e h
    constructor <;> simp [retryRun, retryGo, h 1, h 2, h 3, hw1, hw2]
  · intro action f dp
    exact ⟨rfl, rfl⟩

/-- C3, witness: the amended theorem applied at a backend that always
fails with the same error: the result is the wrapped retry-exhausted
error after exactly 3 attempts. -/
theorem C3_retry_amended_witness :
    (retryRun (wait_exponential 1 2 10) 3
        (fun _ => (.error (.apiError "down") : Except PyExc String))).result
      = .error (.retryError (.apiError "down"))
    ∧ (retryRun (wait_exponential 1 2 10) 3
        (fun _ => (.error (.apiError "down") : Except PyExc String))).attempts = 3 :=
  C3_retry_amended.2.1 _ (.apiError "down") (fun _ => rfl)

/- ---------------------------------------------------------------------
Validator round-trip lemmas.
--------------------------------------------------------------------- -/

theorem targetSection_ofString_toStr (t : TargetSection) :
    TargetSection.ofString t.toStr = some t := by
  cases t <;> rfl

theorem operation_ofString_toStr (op : Operation) :
    Operation.ofString op.toStr = some op := by
  cases op <;> rfl

theorem executionRisk_ofString_toStr (er : ExecutionRisk) :
    ExecutionRisk.ofString er.toStr = some er := by
  cases er <;> rfl

theorem vEntity_encode (i : ℕ) (e : EntityInvolved) :
    vEntity i (EntityInvolved.encode e) = .ok e := by
  simp [vEntity, EntityInvolved.encode, vEntityField, recordGet]

theorem vEntityElems_encode (l : List EntityInvolved) (i : ℕ) :
    vEntityElems i (l.map EntityInvolved.encode) = .ok l := by
  induction l generalizing i with
  | nil => rfl
  | cons e rest ih => simp [vEntityElems, vEntity_encode, ih]

theorem vStrElems_encode (k : String) (l : List String) (i : ℕ) :
    vStrElems k i (l.map Json.str) = .ok l := by
  induction l generalizing i with
  | nil => rfl
  | cons s rest ih => simp [vStrElems, vStrElem, ih]

theorem vBoolPairs_encode (l : List (String × Bool)) :
    vBoolPairs (l.map fun p => (p.1, Json.bool p.2)) = .ok l := by
  induction l with
  | nil => rfl
  | cons p rest ih =>
      obtain ⟨k, b⟩ := p
      simp [vBoolPairs, vSubBool, ih]

theorem validate_encode (v : IntentionSchema) (fid : String)
    (h0 : 0 ≤ v.confidence) (h1 : v.confidence ≤ 1) :
    IntentionSchema.validate fid v.encode = .ok v := by
  have hlt0 : ¬ (v.confidence < 0) := not_lt.mpr h0
  have hlt1 : ¬ (1 < v.confidence) := not_lt.mpr h1
  simp [IntentionSchema.validate, IntentionSchema.encode, vIntentId, vRequiredStr,
        vTargetSection, vOperation, vExecutionRisk, vConfidence, vEntities, vPayload,
        vConstraints, vStrListField, vValReqs, vSubDict, vSubBool, recordGet,
        targetSection_ofString_toStr, operation_ofString_toStr, executionRisk_ofString_toStr,
        vEntityElems_encode, vStrElems_encode, vBoolPairs_encode, hlt0, hlt1]

theorem validate_encode_badConfidence (v : IntentionSchema) (fid : String)
    (h : v.confidence < 0 ∨ 1 < v.confidence) :
    ∃ m, IntentionSchema.validate fid v.encode = .error [(["confidence"], m)] := by
  rcases h with h | h
  · refine ⟨"Input should be greater than or equal to 0", ?_⟩
    simp [IntentionSchema.validate, IntentionSchema.encode, vIntentId, vRequiredStr,
          vTargetSection, vOperation, vExecutionRisk, vConfidence, vEntities, vPayload,
          vConstraints, vStrListField, vValReqs, vSubDict, vSubBool, recordGet,
          targetSection_ofString_toStr, operation_ofString_toStr, executionRisk_ofString_toStr,
          vEntityElems_encode, vStrElems_encode, vBoolPairs_encode, errsOf, h]
  · have hlt0 : ¬ (v.confidence < 0) := not_lt.mpr (le_of_lt (lt_trans zero_lt_one h))
    refine ⟨"Input should be less than or equal to 1", ?_⟩
    simp [IntentionSchema.validate, IntentionSchema.encode, vIntentId, vRequiredStr,
          vTargetSection, vOperation, vExecutionRisk, vConfidence, vEntities, vPayload,
          vConstraints, vStrListField, vValReqs, vSubDict, vSubBool, recordGet,
          targetSection_ofString_toStr, operation_ofString_toStr, executionRisk_ofString_toStr,
          vEntityElems_encode, vStrElems_encode, vBoolPairs_encode, errsOf, hlt0, h]

/-- C7: validation of `confidence` uses the closed interval [0, 1]: any
in-range value (both ends included) is accepted exactly as given (never
clamped — the whole record round-trips unchanged), and any out-of-range
value makes validation fail with an error whose field path is
`confidence`. -/
theorem C7_confidence_closed_interval :
    (∀ (v : IntentionSchema) (fid : String) (q : ℚ), 0 ≤ q → q ≤ 1 →
        IntentionSchema.validate fid ({v with confidence := q}).encode
          = .ok {v with confidence := q})
    ∧ (∀ (v : IntentionSchema) (fid : String) (q : ℚ), q < 0 ∨ 1 < q →
        ∃ errs, IntentionSchema.validate fid ({v with confidence := q}).encode
            = .error errs
          ∧ ∃ m, (["confidence"], m) ∈ errs) := by
  constructor
  · intro v fid q hq0 hq1
    exact validate_encode {v with confidence := q} fid hq0 hq1
  · intro v fid q hq
    obtain ⟨m, hm⟩ := validate_encode_badConfidence {v with confidence := q} fid hq
    exact ⟨[(["confidence"], m)], hm, m, List.mem_singleton.mpr rfl⟩

/-- C7, witness: the boundary value 1 is accepted unchanged (inclusive
upper end) and the out-of-range value 3/2 is rejected with a
`confidence` field-path error, both at a concrete canonical record. -/
theorem C7_confidence_closed_interval_witness :
    IntentionSchema.validate "fresh" ({sampleIntent with confidence := 1}).encode
      = .ok {sampleIntent with confidence := 1}
    ∧ ∃ errs, IntentionSchema.validate "fresh"
          ({sampleIntent with confidence := 3/2}).encode = .error errs
        ∧ ∃ m, (["confidence"], m) ∈ errs :=
  ⟨C7_confidence_closed_interval.1 sampleIntent "fresh" 1 (by norm_num) (by norm_num),
   C7_confidence_closed_interval.2 sampleIntent "fresh" (3/2) (Or.inr (by norm_num))⟩

/-- C8: validation is idempotent on already-canonical input — for every
valid typed intent value `V` (its `confidence` in range, the only
invariant the Lean types do not already force), running the pydantic
validator on `V`'s dict form succeeds and returns `V` unchanged. -/
theorem C8_validation_idempotent (v : IntentionSchema) (fid : String) (hv : v.Valid) :
    IntentionSchema.validate fid v.encode = .ok v :=
  validate_encode v fid hv.1 hv.2

/-- C8, witness: the idempotence theorem applied at a concrete valid
intent value. -/
theorem C8_validation_idempotent_witness :
    IntentionSchema.validate "fresh" sampleIntent.encode = .ok sampleIntent :=
  C8_validation_idempotent sampleIntent "fresh" ⟨by norm_num [sampleIntent], by norm_num [sampleIntent]⟩
